import Mathlib

/-!
Verification development for the `imu_load` package
(`src/imu_load/imu_load.py`): a shallow embedding in Lean 4 of the
timestamp-indexed sensor-stream classes and their file-format adapters,
together with theorems settling the specification's testable properties.

Modelling conventions:
* Python exceptions become `Except PyErr`.  The single Python `ValueError`
  is split into the specification's error taxonomy according to the raise
  site (NotFoundError, AmbiguousMatchError, OutOfRangeError, SchemaError,
  ParseError, NamingError); `IndexError` and `TypeError` keep their Python
  names.
* Nanosecond timestamps are modelled as `Int` (the numpy `int64` values in
  the claims are far from the 2^63 overflow boundary, so no wrap-around is
  modelled).
* Float arithmetic is modelled over `ℚ`; every numeric literal appearing in
  the claims is exactly representable in binary64, so the rational model
  agrees with the float computation on those inputs.
* Python's dynamically typed camera-params entries are modelled with the
  tagged type `PyVal`, so that the missing `int(...)` cast in
  `CameraParams._process` (the value stays a string) is visible, and the
  `str - str` TypeError of `CameraParams.total_time` is reproduced by
  `pySub`.
-/

deriving instance DecidableEq for Except

/-- Error outcomes of the Python code, split by raise site according to the
specification's error taxonomy (§7). -/
inductive PyErr where
  | notFound
  | ambiguousMatch
  | outOfRange
  | indexError
  | schemaError
  | parseError
  | namingError
  | typeError
  | valueError
  deriving DecidableEq, Repr

/-- A dynamically typed Python value: either an `int` or a `str`.  Used for
the timestamp slot of camera-params entries, which the source never casts. -/
inductive PyVal where
  | int (n : Int)
  | str (s : String)
  deriving DecidableEq, Repr

/-- Python's `-` operator on two dynamically typed values: defined on
`int - int`, a `TypeError` on anything else (in particular `str - str`). -/
def pySub (a b : PyVal) : Except PyErr PyVal :=
  match a, b with
  | .int x, .int y => .ok (.int (x - y))
  | _, _ => .error .typeError

/-- Embedding of class `TimestampedData` (imu_load.py:6) together with the
storage its subclasses provide: a numpy array `timestamps` and the per-index
payload reachable through the subclass `__getitem__` (kept as `values`).
The payload type `α` is `List ℚ` for `Timestamped4Vec` rows, a matrix for
`TimestampedMtx`, and `Int` for `RecordStartStop` (whose `__getitem__`
returns the timestamp itself). -/
structure TimestampedData (α : Type) where
  timestamps : List Int
  values : List α
  deriving Repr, DecidableEq

namespace TimestampedData

variable {α : Type}

/-- `num_readings` (imu_load.py:15): `self.timestamps.size`. -/
def num_readings (d : TimestampedData α) : Nat :=
  d.timestamps.length

/-- Subclass `__getitem__` at a (non-negative) index: `self[key]`.
Out-of-bounds indexing raises `IndexError`. -/
def getItem (d : TimestampedData α) (i : Nat) : Except PyErr α :=
  match d.values.get? i with
  | some v => .ok v
  | none => .error .indexError

/-- `total_time` (imu_load.py:7): `self.timestamps[-1] - self.timestamps[0]`;
indexing an empty array raises `IndexError`. -/
def total_time (d : TimestampedData α) : Except PyErr Int :=
  match d.timestamps.head?, d.timestamps.getLast? with
  | some first, some last => .ok (last - first)
  | _, _ => .error .indexError

/-- `reading_at_time` (imu_load.py:18): collects every index whose timestamp
equals the query (`np.nonzero(self.timestamps == time_in_ns)`), raises on
zero or multiple matches, otherwise returns `self[index]`. -/
def reading_at_time (d : TimestampedData α) (time_in_ns : Int) : Except PyErr α :=
  let correct_indices :=
    (List.range d.timestamps.length).filter (fun i => d.timestamps.getD i 0 == time_in_ns)
  match correct_indices with
  | [] => .error .notFound
  | [i] => d.getItem i
  | _ => .error .ambiguousMatch

/-- `check_time_in_range` (imu_load.py:40): raises unless
`timestamps[0] <= t <= timestamps[-1]`; indexing an empty array raises
`IndexError`. -/
def check_time_in_range (d : TimestampedData α) (time_in_ns : Int) : Except PyErr Unit :=
  match d.timestamps.head?, d.timestamps.getLast? with
  | some first, some last =>
      if first ≤ time_in_ns ∧ time_in_ns ≤ last then .ok () else .error .outOfRange
  | _, _ => .error .indexError

/-- `first_reading_below` (imu_load.py:45): the largest index whose timestamp
is `≤ t` (`np.nonzero(self.timestamps <= t)[0].max()`); `.max()` of an empty
index array raises `ValueError`. -/
def first_reading_below (d : TimestampedData α) (time_in_ns : Int) :
    Except PyErr (Int × Nat) :=
  let idxs :=
    (List.range d.timestamps.length).filter (fun i => d.timestamps.getD i 0 ≤ time_in_ns)
  match idxs.getLast? with
  | some idx_below => .ok (d.timestamps.getD idx_below 0, idx_below)
  | none => .error .valueError

/-- `first_reading_above` (imu_load.py:53): special-cases `t` equal to the
final timestamp, returning the out-of-bounds index `self.timestamps.size`;
otherwise the smallest index whose timestamp is `> t`
(`np.nonzero(self.timestamps > t)[0].min()`); `.min()` of an empty index
array raises `ValueError`. -/
def first_reading_above (d : TimestampedData α) (time_in_ns : Int) :
    Except PyErr (Int × Nat) :=
  match d.timestamps.getLast? with
  | none => .error .indexError
  | some last =>
    if time_in_ns = last then
      .ok (time_in_ns, d.timestamps.length)
    else
      let idxs :=
        (List.range d.timestamps.length).filter (fun i => time_in_ns < d.timestamps.getD i 0)
      match idxs.head? with
      | some idx_above => .ok (d.timestamps.getD idx_above 0, idx_above)
      | none => .error .valueError

/-- `interpolated_reading_at_time` (imu_load.py:69): range check, bracketing
lookups, `t = (time - below) / diff`, and the deliberately inverted blend
`t * self[below_idx] + (1 - t) * self[above_idx]`.  The division is over ℚ
(the float model); when `diff = 0` the Python code reaches the out-of-bounds
`self[above_idx]` and raises `IndexError`, which the `getItem` call
reproduces. -/
def interpolated_reading_at_time [SMul ℚ α] [Add α]
    (d : TimestampedData α) (time_in_ns : Int) : Except PyErr α := do
  d.check_time_in_range time_in_ns
  let (nanoseconds_above, nano_above_idx) ← d.first_reading_above time_in_ns
  let (nanoseconds_below, nano_below_idx) ← d.first_reading_below time_in_ns
  let diff : ℚ := ((nanoseconds_above - nanoseconds_below : Int) : ℚ)
  let t : ℚ := ((time_in_ns - nanoseconds_below : Int) : ℚ) / diff
  let below ← d.getItem nano_below_idx
  let above ← d.getItem nano_above_idx
  return t • below + (1 - t) • above

end TimestampedData

/-- numpy broadcast: scalar times array is elementwise. -/
instance listSMul {α : Type} [SMul ℚ α] : SMul ℚ (List α) :=
  ⟨fun c v => v.map (fun x => c • x)⟩

/-- numpy broadcast: array plus array (same shape) is elementwise. -/
instance listAdd {α : Type} [Add α] : Add (List α) :=
  ⟨fun v w => List.zipWith (· + ·) v w⟩

theorem listSMul_def {α : Type} [SMul ℚ α] (c : ℚ) (v : List α) :
    c • v = v.map (fun x => c • x) := rfl

theorem listAdd_def {α : Type} [Add α] (v w : List α) :
    v + w = List.zipWith (· + ·) v w := rfl

/-- Fuel-driven worker for Python `str.split(sep)` over character lists
(`fuel ≥ length of the input + 1` makes the fuel clause unreachable for a
non-empty separator): scan left to right, cut at each occurrence of `sep`,
resume after it.  `acc` holds the current field reversed. -/
def pySplitAux (sep : List Char) : Nat → List Char → List Char → List (List Char)
  | 0, rest, acc => [acc.reverse ++ rest]
  | fuel + 1, cs, acc =>
    match cs with
    | [] => [acc.reverse]
    | c :: rest =>
      if sep.isPrefixOf (c :: rest) then
        acc.reverse :: pySplitAux sep fuel (List.drop sep.length (c :: rest)) []
      else
        pySplitAux sep fuel rest (c :: acc)

/-- Python `s.split(sep)` for a non-empty separator. -/
def pySplit (s sep : String) : List String :=
  (pySplitAux sep.data (s.data.length + 1) s.data []).map (fun cs => ⟨cs⟩)

/-- Python `s.strip()` (also the whitespace stripping `int`/`float` do). -/
def pyTrim (s : String) : String :=
  ⟨((s.data.dropWhile Char.isWhitespace).reverse.dropWhile Char.isWhitespace).reverse⟩

/-- Value of a non-empty all-digit character run, else `none`. -/
def digitsVal (cs : List Char) : Option Nat :=
  if cs ≠ [] ∧ cs.all Char.isDigit then
    some (cs.foldl (fun n c => 10 * n + (c.toNat - 48)) 0)
  else none

/-- Signed decimal integer over characters: Python `int` literal syntax. -/
def pyIntVal (cs : List Char) : Option Int :=
  match cs with
  | '-' :: rest => (digitsVal rest).map (fun n => -(n : Int))
  | '+' :: rest => (digitsVal rest).map (fun n => (n : Int))
  | _ => (digitsVal cs).map (fun n => (n : Int))

/-- Python `int(s)`: surrounding whitespace stripped, optional sign, decimal
digits; raises `ValueError` (modelled `.parseError`) otherwise. -/
def pyInt (s : String) : Except PyErr Int :=
  match pyIntVal (pyTrim s).data with
  | some n => .ok n
  | none => .error .parseError

/-- Unsigned decimal-literal core of Python `float`: `digits` or
`digits.digits`, valued in ℚ. -/
def pyFloatMag (cs : List Char) : Option ℚ :=
  match pySplitAux ['.'] (cs.length + 1) cs [] with
  | [a] => (digitsVal a).map (fun n => (n : ℚ))
  | [a, b] =>
    match digitsVal a, digitsVal b with
    | some n, some f => some ((n : ℚ) + (f : ℚ) / (10 : ℚ) ^ b.length)
    | _, _ => none
  | _ => none

/-- Python `float(s)` on the plain decimal literals the adapters consume,
modelled exactly over ℚ (every literal in the claims is representable in
binary64, where the model and the float computation agree). -/
def pyFloat (s : String) : Except PyErr ℚ :=
  let cs := (pyTrim s).data
  match (match cs with
         | '-' :: rest => (pyFloatMag rest).map Neg.neg
         | '+' :: rest => pyFloatMag rest
         | _ => pyFloatMag cs) with
  | some q => .ok q
  | none => .error .parseError

/-- Python `s.lower()` (ASCII data). -/
def pyLower (s : String) : String := ⟨s.data.map Char.toLower⟩

/-- Python `s.startswith(p)`. -/
def pyStartsWith (s p : String) : Bool := s.data.take p.data.length == p.data

/-- Python `s.endswith(p)`. -/
def pyEndsWith (s p : String) : Bool := s.data.drop (s.data.length - p.data.length) == p.data

namespace RecordStartStop

/-- `RecordStartStop._process` (imu_load.py:155): split on `"::"` into
exactly four fields (a Python unpack `ValueError` otherwise, modelled
`.parseError`), reject an event type other than `"Start"`/`"Stop"`
(SchemaError), cast the two time fields with `int(...)`. -/
def process (data_line : String) : Except PyErr (Int × Int × String) :=
  match pySplit data_line "::" with
  | [event_type, time_in_ns, wallclock_since_epoch_ms, date] =>
    if event_type = "Start" ∨ event_type = "Stop" then do
      let t ← pyInt time_in_ns
      let w ← pyInt wallclock_since_epoch_ms
      .ok (t, w, date)
    else .error .schemaError
  | _ => .error .parseError

/-- The fields `RecordStartStop.__init__` stores from the two processed
lines, plus the `timestamps` array `[start_ns, end_ns]`. -/
structure Span where
  start_ns : Int
  start_ms_since_epoch : Int
  start_date : String
  end_ns : Int
  end_ms_since_epoch : Int
  end_state : String
  deriving DecidableEq, Repr

/-- `RecordStartStop.__init__` (imu_load.py:137) minus file I/O: takes the
`readlines()` result, strips `"//"` comment lines, requires exactly two
remaining lines (SchemaError otherwise), processes them in order. -/
def load (lines : List String) : Except PyErr Span := do
  let lines := lines.filter (fun l => !(pyStartsWith l "//"))
  match lines with
  | [start_line, end_line] =>
    let (s_ns, s_ms, s_date) ← process start_line
    let (e_ns, e_ms, e_state) ← process end_line
    .ok ⟨s_ns, s_ms, s_date, e_ns, e_ms, e_state⟩
  | _ => .error .schemaError

/-- The `timestamps` array built at imu_load.py:153; `__getitem__`
(imu_load.py:164) returns the timestamp itself, so `values` repeats it. -/
def toData (sp : Span) : TimestampedData Int :=
  ⟨[sp.start_ns, sp.end_ns], [sp.start_ns, sp.end_ns]⟩

end RecordStartStop

namespace CameraParams

/-- One parsed camera-params entry: the raw (uncast) timestamp, the phone
identifier, and the key → list-of-values mapping. -/
abbrev Entry := PyVal × String × List (String × List String)

/-- Python `dict(pairs)` on string keys, as an association list: a later
binding of an existing key overwrites its value in place, a new key is
appended. -/
def dictInsert (m : List (String × List String)) (kv : String × List String) :
    List (String × List String) :=
  if m.any (fun p => p.1 == kv.1) then
    m.map (fun p => if p.1 == kv.1 then (p.1, kv.2) else p)
  else m ++ [kv]

/-- Python `dict(full_key_vals)`. -/
def pyDict (l : List (String × List String)) : List (String × List String) :=
  l.foldl dictInsert []

/-- `CameraParams._process` (imu_load.py:104): split on `"::"` into exactly
three fields (unpack `ValueError` otherwise), split the third on `";"`, each
group on `"="` into exactly two fields, each value on `","`; the timestamp
field is stored as-is (never cast to `int`). -/
def process (info_line : String) : Except PyErr Entry := do
  match pySplit info_line "::" with
  | [timestamp, phone, other_data] =>
    let other_data_key_val := pySplit other_data ";"
    let split_by_equals := other_data_key_val.map (fun o => pySplit o "=")
    let full_key_vals ← split_by_equals.mapM (fun kv =>
      match kv with
      | [k, v] => Except.ok (k, pySplit v ",")
      | _ => Except.error PyErr.parseError)
    .ok (PyVal.str timestamp, phone, pyDict full_key_vals)
  | _ => .error .parseError

/-- `CameraParams.__init__` (imu_load.py:98) minus file I/O: processes every
line of the file. -/
def load (lines : List String) : Except PyErr (List Entry) :=
  lines.mapM process

/-- `CameraParams.total_time` (imu_load.py:123): with more than one entry,
`timestamps[-1] - timestamps[0]` (Python `-` on the stored values, which
`_process` left as strings); otherwise the sentinel `-1`. -/
def total_time (data : List Entry) : Except PyErr PyVal :=
  let timestamps := data.map (fun d => d.1)
  if timestamps.length > 1 then
    match timestamps.getLast?, timestamps.head? with
    | some last, some first => pySub last first
    | _, _ => .error .indexError
  else
    .ok (.int (-1))

end CameraParams

namespace Timestamped4Vec

/-- `Timestamped4Vec.__init__` (imu_load.py:169) minus file I/O: takes the
`readlines()` result, splits each line on `","` and drops the final field
(`[:-1]`), casts field 0 with `int(...)` (an empty field list raises
`IndexError`) and the remaining fields with `float(...)`. -/
def load (lines : List String) : Except PyErr (TimestampedData (List ℚ)) := do
  let split_lines := lines.map (fun l => (pySplit l ",").dropLast)
  let timestamps ← split_lines.mapM (fun ts =>
    match ts.head? with
    | some s => pyInt s
    | none => Except.error PyErr.indexError)
  let data ← split_lines.mapM (fun ts => ts.tail.mapM pyFloat)
  .ok ⟨timestamps, data⟩

end Timestamped4Vec

namespace IMUSensorVideo

/-- `IMUSensorVideo.__init__` (imu_load.py:211–235), the filename validation
and session-id derivation up to (not including) the per-adapter file loads:
NamingError unless the lower-cased basename starts with `"video-"` and ends
with `".mp4"`; `vid_id = vid_file_name[6:-4]` (the Python slice, modelled as
drop-6-then-take); the metadata directory `"videodata_video-" + vid_id`
joined onto the directory of the video file.  Returns
`(vid_id, abs_metadata_dir)`. -/
def naming (base_dir vid_file_name : String) : Except PyErr (String × String) :=
  if !(pyStartsWith (pyLower vid_file_name) "video-") then .error .namingError
  else if !(pyEndsWith (pyLower vid_file_name) ".mp4") then .error .namingError
  else
    let vid_id : String := ⟨(vid_file_name.data.drop 6).take (vid_file_name.data.length - 10)⟩
    let metadata_dir_name := "videodata_video-" ++ vid_id
    .ok (vid_id, base_dir ++ "/" ++ metadata_dir_name)

end IMUSensorVideo

/-! ## General lemmas about index filters over `List.range` -/

theorem filter_range_getLast?_of (n i : Nat) (P : Nat → Bool) (hi : i < n)
    (h : ∀ j, j < n → (P j = true ↔ j ≤ i)) :
    ((List.range n).filter P).getLast? = some i := by
  have hn : n = (i + 1) + (n - (i + 1)) := by omega
  rw [hn, List.range_add, List.filter_append]
  have h1 : (List.range (i + 1)).filter P = List.range (i + 1) := by
    rw [List.filter_eq_self]
    intro a ha
    rw [List.mem_range] at ha
    exact (h a (by omega)).mpr (by omega)
  have h2 : ((List.range (n - (i + 1))).map (i + 1 + ·)).filter P = [] := by
    rw [List.filter_eq_nil_iff]
    intro a ha
    rw [List.mem_map] at ha
    obtain ⟨b, hb, rfl⟩ := ha
    rw [List.mem_range] at hb
    simp only [Bool.not_eq_true]
    rw [Bool.eq_false_iff]
    intro hP
    exact absurd ((h (i + 1 + b) (by omega)).mp hP) (by omega)
  rw [h1, h2, List.append_nil, List.range_succ, List.getLast?_concat]

theorem filter_range_head?_of (n k : Nat) (P : Nat → Bool) (hk : k < n)
    (h : ∀ j, j < n → (P j = true ↔ k ≤ j)) :
    ((List.range n).filter P).head? = some k := by
  have hn : n = k + (n - k) := by omega
  rw [hn, List.range_add, List.filter_append]
  have h1 : (List.range k).filter P = [] := by
    rw [List.filter_eq_nil_iff]
    intro a ha
    rw [List.mem_range] at ha
    rw [Bool.not_eq_true, Bool.eq_false_iff]
    intro hP
    exact absurd ((h a (by omega)).mp hP) (by omega)
  have h2 : ((List.range (n - k)).map (k + ·)).filter P = (List.range (n - k)).map (k + ·) := by
    rw [List.filter_eq_self]
    intro a ha
    rw [List.mem_map] at ha
    obtain ⟨b, hb, rfl⟩ := ha
    rw [List.mem_range] at hb
    exact (h (k + b) (by omega)).mpr (by omega)
  rw [h1, h2, List.nil_append]
  have hnk : n - k = (n - k - 1) + 1 := by omega
  rw [hnk, List.range_succ_eq_map, List.map_cons, List.head?_cons]
  simp

theorem filter_range_eq_singleton (n i : Nat) (P : Nat → Bool) (hi : i < n)
    (h : ∀ j, j < n → (P j = true ↔ j = i)) :
    (List.range n).filter P = [i] := by
  have hn : n = i + (n - i) := by omega
  rw [hn, List.range_add, List.filter_append]
  have h1 : (List.range i).filter P = [] := by
    rw [List.filter_eq_nil_iff]
    intro a ha
    rw [List.mem_range] at ha
    rw [Bool.not_eq_true, Bool.eq_false_iff]
    intro hP
    exact absurd ((h a (by omega)).mp hP) (by omega)
  have hni : n - i = (n - i - 1) + 1 := by omega
  rw [h1, List.nil_append, hni, List.range_succ_eq_map, List.map_cons, List.filter_cons]
  have hPi : P (i + 0) = true := (h (i + 0) (by omega)).mpr (by omega)
  rw [hPi]
  simp only [if_true]
  have h2 : (((List.range (n - i - 1)).map Nat.succ).map (i + ·)).filter P = [] := by
    rw [List.filter_eq_nil_iff]
    intro a ha
    rw [List.map_map, List.mem_map] at ha
    obtain ⟨b, hb, rfl⟩ := ha
    rw [List.mem_range] at hb
    simp only [Function.comp]
    rw [Bool.not_eq_true, Bool.eq_false_iff]
    intro hP
    have := (h _ (by omega)).mp hP
    omega
  rw [List.map_map] at h2 ⊢
  rw [h2]
  simp

/-- Strictly ascending timestamps are strictly monotone in the index. -/
theorem pairwise_getD_lt (ts : List Int) (hpw : ts.Pairwise (· < ·)) {i j : Nat}
    (hij : i < j) (hj : j < ts.length) : ts.getD i 0 < ts.getD j 0 := by
  have hi : i < ts.length := Nat.lt_trans hij hj
  rw [List.getD_eq_get?, List.get?_eq_get hi, List.getD_eq_get?, List.get?_eq_get hj]
  exact (List.pairwise_iff_get.mp hpw) ⟨i, hi⟩ ⟨j, hj⟩ hij

/-- `List.mapM` over `Except` preserves length when it succeeds. -/
theorem mapM_ok_length {β γ : Type} (f : β → Except PyErr γ) (l : List β) :
    ∀ res : List γ, l.mapM f = .ok res → res.length = l.length := by
  induction l with
  | nil =>
    intro res h
    simp only [List.mapM_nil, pure, Except.pure, Except.ok.injEq] at h
    simp [← h]
  | cons b bs ih =>
    intro res h
    rw [List.mapM_cons] at h
    cases hfb : f b with
    | error e => rw [hfb] at h; simp [bind, Except.bind] at h
    | ok x =>
      rw [hfb] at h
      cases hbs : bs.mapM f with
      | error e => rw [hbs] at h; simp [bind, Except.bind] at h
      | ok xs =>
        rw [hbs] at h
        simp only [bind, Except.bind, pure, Except.pure, Except.ok.injEq] at h
        subst h
        simp [ih xs hbs]

/-! ## Bracketing lemmas for the boundary searches -/

theorem getD_of_get? (ts : List Int) {i : Nat} {x : Int} (h : ts.get? i = some x) :
    ts.getD i 0 = x := by
  rw [List.getD_eq_get?, h]
  rfl

theorem lt_length_of_get? (ts : List Int) {i : Nat} {x : Int} (h : ts.get? i = some x) :
    i < ts.length := by
  by_contra hh
  rw [List.get?_eq_none.mpr (by omega)] at h
  exact Option.noConfusion h

theorem head?_eq_get?_zero (ts : List Int) : ts.head? = ts.get? 0 := by
  cases ts <;> rfl

/-- On strictly ascending timestamps, if `timestamps[i] ≤ t < timestamps[i+1]`
then `first_reading_below` finds exactly index `i`. -/
theorem first_reading_below_bracket {α : Type} (d : TimestampedData α)
    (hpw : d.timestamps.Pairwise (· < ·)) {i : Nat} {t ti ti1 : Int}
    (hti : d.timestamps.get? i = some ti) (hti1 : d.timestamps.get? (i + 1) = some ti1)
    (h1 : ti ≤ t) (h2 : t < ti1) :
    d.first_reading_below t = .ok (ti, i) := by
  have hi1 : i + 1 < d.timestamps.length := lt_length_of_get? _ hti1
  have hgi : d.timestamps.getD i 0 = ti := getD_of_get? _ hti
  have hgi1 : d.timestamps.getD (i + 1) 0 = ti1 := getD_of_get? _ hti1
  have hfil : ((List.range d.timestamps.length).filter
      (fun j => decide (d.timestamps.getD j 0 ≤ t))).getLast? = some i := by
    apply filter_range_getLast?_of _ _ _ (by omega)
    intro j hj
    rw [decide_eq_true_iff]
    constructor
    · intro hle
      by_contra hji
      have hij1 : i + 1 ≤ j := by omega
      have : ti1 ≤ d.timestamps.getD j 0 := by
        rcases Nat.eq_or_lt_of_le hij1 with heq | hlt
        · rw [← heq, hgi1]
        · exact le_of_lt (hgi1 ▸ pairwise_getD_lt _ hpw hlt hj)
      omega
    · intro hji
      rcases Nat.eq_or_lt_of_le hji with rfl | hlt
      · omega
      · have : d.timestamps.getD j 0 < ti := hgi ▸ pairwise_getD_lt _ hpw hlt (by omega)
        omega
  have hdef : d.first_reading_below t =
      match ((List.range d.timestamps.length).filter
        (fun j => decide (d.timestamps.getD j 0 ≤ t))).getLast? with
      | some idx => .ok (d.timestamps.getD idx 0, idx)
      | none => .error .valueError := rfl
  rw [hdef, hfil]
  show Except.ok (d.timestamps.getD i 0, i) = Except.ok (ti, i)
  rw [hgi]

/-- On strictly ascending timestamps, if `timestamps[i] ≤ t < timestamps[i+1]`
then `first_reading_above` finds exactly index `i+1` (and `t` is not the
final timestamp). -/
theorem first_reading_above_bracket {α : Type} (d : TimestampedData α)
    (hpw : d.timestamps.Pairwise (· < ·)) {i : Nat} {t ti ti1 : Int}
    (hti : d.timestamps.get? i = some ti) (hti1 : d.timestamps.get? (i + 1) = some ti1)
    (h1 : ti ≤ t) (h2 : t < ti1) :
    d.first_reading_above t = .ok (ti1, i + 1) := by
  have hi1 : i + 1 < d.timestamps.length := lt_length_of_get? _ hti1
  have hgi : d.timestamps.getD i 0 = ti := getD_of_get? _ hti
  have hgi1 : d.timestamps.getD (i + 1) 0 = ti1 := getD_of_get? _ hti1
  have hnpos : 0 < d.timestamps.length := by omega
  have hlast : d.timestamps.getLast? =
      some (d.timestamps.getD (d.timestamps.length - 1) 0) := by
    rw [List.getLast?_eq_get?]
    rw [List.getD_eq_get?, List.get?_eq_get (by omega)]
    rfl
  have hlastge : ti1 ≤ d.timestamps.getD (d.timestamps.length - 1) 0 := by
    rcases Nat.eq_or_lt_of_le (by omega : i + 1 ≤ d.timestamps.length - 1) with heq | hlt
    · rw [← heq, hgi1]
    · exact le_of_lt (hgi1 ▸ pairwise_getD_lt _ hpw hlt (by omega))
  have hne : ¬ (t = d.timestamps.getD (d.timestamps.length - 1) 0) := by omega
  have hfil : ((List.range d.timestamps.length).filter
      (fun j => decide (t < d.timestamps.getD j 0))).head? = some (i + 1) := by
    apply filter_range_head?_of _ _ _ (by omega)
    intro j hj
    rw [decide_eq_true_iff]
    constructor
    · intro hlt
      by_contra hji
      have hjle : j ≤ i := by omega
      have : d.timestamps.getD j 0 ≤ ti := by
        rcases Nat.eq_or_lt_of_le hjle with rfl | hlt2
        · omega
        · exact le_of_lt (hgi ▸ pairwise_getD_lt _ hpw hlt2 (by omega))
      omega
    · intro hij1
      have : ti1 ≤ d.timestamps.getD j 0 := by
        rcases Nat.eq_or_lt_of_le hij1 with heq | hlt2
        · rw [← heq, hgi1]
        · exact le_of_lt (hgi1 ▸ pairwise_getD_lt _ hpw hlt2 hj)
      omega
  have hdef : d.first_reading_above t =
      match d.timestamps.getLast? with
      | none => .error .indexError
      | some last =>
        if t = last then
          .ok (t, d.timestamps.length)
        else
          match ((List.range d.timestamps.length).filter
            (fun j => decide (t < d.timestamps.getD j 0))).head? with
          | some idx => .ok (d.timestamps.getD idx 0, idx)
          | none => .error .valueError := rfl
  rw [hdef, hlast]
  simp only [if_neg hne]
  rw [hfil]
  show Except.ok (d.timestamps.getD (i + 1) 0, i + 1) = Except.ok (ti1, i + 1)
  rw [hgi1]

theorem getItem_of_get? {α : Type} (d : TimestampedData α) {i : Nat} {v : α}
    (h : d.values.get? i = some v) : d.getItem i = .ok v := by
  have hdef : d.getItem i =
      match d.values.get? i with
      | some v => .ok v
      | none => .error .indexError := rfl
  rw [hdef, h]

theorem getItem_oob {α : Type} (d : TimestampedData α) {i : Nat}
    (h : d.values.length ≤ i) : d.getItem i = .error .indexError := by
  have hdef : d.getItem i =
      match d.values.get? i with
      | some v => .ok v
      | none => .error .indexError := rfl
  rw [hdef, List.get?_eq_none.mpr h]

theorem check_ok {α : Type} (d : TimestampedData α) {t first last : Int}
    (hh : d.timestamps.head? = some first) (hl : d.timestamps.getLast? = some last)
    (h1 : first ≤ t) (h2 : t ≤ last) : d.check_time_in_range t = .ok () := by
  simp [TimestampedData.check_time_in_range, hh, hl, h1, h2]

/-- The time series starts at `timestamps[0]`. -/
theorem head?_getD {α : Type} (d : TimestampedData α) (hn : 0 < d.timestamps.length) :
    d.timestamps.head? = some (d.timestamps.getD 0 0) := by
  rw [head?_eq_get?_zero, List.get?_eq_get hn, List.getD_eq_get?, List.get?_eq_get hn]
  rfl

/-- The time series ends at `timestamps[length - 1]`. -/
theorem getLast?_getD {α : Type} (d : TimestampedData α) (hn : 0 < d.timestamps.length) :
    d.timestamps.getLast? =
      some (d.timestamps.getD (d.timestamps.length - 1) 0) := by
  rw [List.getLast?_eq_get?]
  rw [List.getD_eq_get?, List.get?_eq_get (by omega)]
  rfl

/-- Core interpolation lemma: with strictly ascending timestamps and
`timestamps[i] ≤ t < timestamps[i+1]`, the result is the inverted blend
`frac • values[i] + (1 - frac) • values[i+1]` with
`frac = (t - timestamps[i]) / (timestamps[i+1] - timestamps[i])`. -/
theorem interpolated_in_segment {α : Type} [SMul ℚ α] [Add α] (d : TimestampedData α)
    (hpw : d.timestamps.Pairwise (· < ·)) {i : Nat} {t ti ti1 : Int} {vi vi1 : α}
    (hti : d.timestamps.get? i = some ti) (hti1 : d.timestamps.get? (i + 1) = some ti1)
    (hvi : d.values.get? i = some vi) (hvi1 : d.values.get? (i + 1) = some vi1)
    (h1 : ti ≤ t) (h2 : t < ti1) :
    d.interpolated_reading_at_time t =
      .ok ((((t - ti : Int) : ℚ) / ((ti1 - ti : Int) : ℚ)) • vi
        + (1 - ((t - ti : Int) : ℚ) / ((ti1 - ti : Int) : ℚ)) • vi1) := by
  have hi1 : i + 1 < d.timestamps.length := lt_length_of_get? _ hti1
  have hgi : d.timestamps.getD i 0 = ti := getD_of_get? _ hti
  have hfirstle : d.timestamps.getD 0 0 ≤ ti := by
    rcases Nat.eq_zero_or_pos i with rfl | hpos
    · omega
    · exact le_of_lt (hgi ▸ pairwise_getD_lt _ hpw hpos (by omega))
  have hlastge : ti1 ≤ d.timestamps.getD (d.timestamps.length - 1) 0 := by
    have hgi1 : d.timestamps.getD (i + 1) 0 = ti1 := getD_of_get? _ hti1
    rcases Nat.eq_or_lt_of_le (by omega : i + 1 ≤ d.timestamps.length - 1) with heq | hlt
    · rw [← heq, hgi1]
    · exact le_of_lt (hgi1 ▸ pairwise_getD_lt _ hpw hlt (by omega))
  have hcheck : d.check_time_in_range t = .ok () :=
    check_ok d (head?_getD d (by omega)) (getLast?_getD d (by omega))
      (by omega) (by omega)
  have ha := first_reading_above_bracket d hpw hti hti1 h1 h2
  have hb := first_reading_below_bracket d hpw hti hti1 h1 h2
  have hgv := getItem_of_get? d hvi
  have hgv1 := getItem_of_get? d hvi1
  simp only [TimestampedData.interpolated_reading_at_time, hcheck, ha, hb, hgv, hgv1,
    bind, Except.bind, pure, Except.pure]

/-- Querying `interpolated_reading_at_time` at exactly the final timestamp:
`first_reading_above` reports the out-of-bounds index `numReadings()`, whose
`self[...]` access raises `IndexError`. -/
theorem interpolated_at_last_indexError {α : Type} [SMul ℚ α] [Add α]
    (d : TimestampedData α) (hpw : d.timestamps.Pairwise (· < ·))
    (hlen : d.values.length = d.timestamps.length) {tl : Int}
    (hn : 0 < d.timestamps.length)
    (htl : d.timestamps.get? (d.timestamps.length - 1) = some tl) :
    d.interpolated_reading_at_time tl = .error .indexError := by
  have hgl : d.timestamps.getD (d.timestamps.length - 1) 0 = tl := getD_of_get? _ htl
  have hlast : d.timestamps.getLast? = some tl := by
    rw [getLast?_getD d hn, hgl]
  have hfirstle : d.timestamps.getD 0 0 ≤ tl := by
    rcases Nat.eq_zero_or_pos (d.timestamps.length - 1) with hz | hpos
    · rw [← hgl, hz]
    · exact le_of_lt (hgl ▸ pairwise_getD_lt _ hpw hpos (by omega))
  have hcheck : d.check_time_in_range tl = .ok () :=
    check_ok d (head?_getD d hn) hlast hfirstle le_rfl
  have habove : d.first_reading_above tl = .ok (tl, d.timestamps.length) := by
    have hdef : d.first_reading_above tl =
        match d.timestamps.getLast? with
        | none => .error .indexError
        | some last =>
          if tl = last then
            .ok (tl, d.timestamps.length)
          else
            match ((List.range d.timestamps.length).filter
              (fun j => decide (tl < d.timestamps.getD j 0))).head? with
            | some idx => .ok (d.timestamps.getD idx 0, idx)
            | none => .error .valueError := rfl
    rw [hdef, hlast]
    simp
  have hbelow : d.first_reading_below tl = .ok (tl, d.timestamps.length - 1) := by
    have hfil : ((List.range d.timestamps.length).filter
        (fun j => decide (d.timestamps.getD j 0 ≤ tl))).getLast? =
        some (d.timestamps.length - 1) := by
      apply filter_range_getLast?_of _ _ _ (by omega)
      intro j hj
      rw [decide_eq_true_iff]
      constructor
      · intro _
        omega
      · intro _
        rcases Nat.eq_or_lt_of_le (by omega : j ≤ d.timestamps.length - 1) with heq | hlt
        · rw [heq, hgl]
        · exact le_of_lt (hgl ▸ pairwise_getD_lt _ hpw hlt (by omega))
    have hdef : d.first_reading_below tl =
        match ((List.range d.timestamps.length).filter
          (fun j => decide (d.timestamps.getD j 0 ≤ tl))).getLast? with
        | some idx => .ok (d.timestamps.getD idx 0, idx)
        | none => .error .valueError := rfl
    rw [hdef, hfil]
    show Except.ok (d.timestamps.getD (d.timestamps.length - 1) 0, d.timestamps.length - 1) = _
    rw [hgl]
  obtain ⟨vb, hvb⟩ : ∃ vb, d.values.get? (d.timestamps.length - 1) = some vb := by
    rw [List.get?_eq_get (by omega)]
    exact ⟨_, rfl⟩
  have hgb := getItem_of_get? d hvb
  have hga : d.getItem d.timestamps.length = .error .indexError :=
    getItem_oob d (by omega)
  simp only [TimestampedData.interpolated_reading_at_time, hcheck, habove, hbelow, hgb, hga,
    bind, Except.bind, pure, Except.pure]

/-! ## Claim theorems -/

/-- C1: for every TimeSeries and every query time `t` strictly between
`timestamps[i]` and `timestamps[i+1]`, `interpolated_reading_at_time t`
equals `frac • values[i] + (1 - frac) • values[i+1]` with
`frac = (t - timestamps[i]) / (timestamps[i+1] - timestamps[i])`: the weight
`frac` goes to the earlier reading (inverted-weight convention), for any
payload type with scalar multiplication and addition (vectors and matrices
alike). -/
theorem C1_interpolated_strict_between {α : Type} [SMul ℚ α] [Add α]
    (d : TimestampedData α) (hpw : d.timestamps.Pairwise (· < ·))
    {i : Nat} {t ti ti1 : Int} {vi vi1 : α}
    (hti : d.timestamps.get? i = some ti) (hti1 : d.timestamps.get? (i + 1) = some ti1)
    (hvi : d.values.get? i = some vi) (hvi1 : d.values.get? (i + 1) = some vi1)
    (h1 : ti < t) (h2 : t < ti1) :
    d.interpolated_reading_at_time t =
      .ok ((((t - ti : Int) : ℚ) / ((ti1 - ti : Int) : ℚ)) • vi
        + (1 - ((t - ti : Int) : ℚ) / ((ti1 - ti : Int) : ℚ)) • vi1) :=
  interpolated_in_segment d hpw hti hti1 hvi hvi1 (le_of_lt h1) h2

/-- Witness for C1 at a concrete two-entry vector series. -/
theorem C1_witness :
    (⟨[0, 10], [[1, 2], [3, 4]]⟩ : TimestampedData (List ℚ)).interpolated_reading_at_time 5 =
      .ok ((((5 - 0 : Int) : ℚ) / ((10 - 0 : Int) : ℚ)) • [1, 2]
        + (1 - ((5 - 0 : Int) : ℚ) / ((10 - 0 : Int) : ℚ)) • [3, 4]) :=
  @C1_interpolated_strict_between (List ℚ) _ _ ⟨[0, 10], [[1, 2], [3, 4]]⟩ (by decide)
    0 5 0 10 [1, 2] [3, 4] rfl rfl rfl rfl (by decide) (by decide)

/-- C2 counterexample: on the series with timestamps `[0, 10]` and values
`[1, 2]`, `interpolated_reading_at_time 0` does NOT return `values[0] = 1`
(it returns `values[1] = 2`: frac = 0 puts all weight on the later reading
under the inverted convention), and `interpolated_reading_at_time 10` does
NOT return `values[1] = 2` (it raises `IndexError` through the
out-of-bounds index from `first_reading_above`). -/
theorem C2_counterexample :
    ¬ ((⟨[0, 10], [1, 2]⟩ : TimestampedData ℚ).interpolated_reading_at_time 0 = .ok 1
       ∧ (⟨[0, 10], [1, 2]⟩ : TimestampedData ℚ).interpolated_reading_at_time 10 = .ok 2) := by
  intro h
  have h0 : (⟨[0, 10], [1, 2]⟩ : TimestampedData ℚ).interpolated_reading_at_time 0 = .ok 2 := by
    simp +decide [TimestampedData.interpolated_reading_at_time,
      TimestampedData.check_time_in_range, TimestampedData.first_reading_above,
      TimestampedData.first_reading_below, TimestampedData.getItem, List.range_succ,
      bind, Except.bind, smul_eq_mul]
  rw [h0] at h
  have := Except.ok.inj h.1
  norm_num at this

/-- C2 (amended): for every TimeSeries with at least two entries (strictly
ascending timestamps, one value per timestamp),
`interpolated_reading_at_time timestamps[0]` returns `values[1]` — the later
reading, since frac = 0 gives the earlier reading weight 0 under the
inverted convention — not `values[0]`; and
`interpolated_reading_at_time timestamps[last]` raises `IndexError` (through
the out-of-bounds index `numReadings()` from `first_reading_above`) rather
than returning `values[last]`. -/
theorem C2_interpolated_boundaries {α : Type} [AddCommMonoid α] [Module ℚ α]
    (d : TimestampedData α) (hpw : d.timestamps.Pairwise (· < ·))
    (hlen : d.values.length = d.timestamps.length)
    {t0 t1 tl : Int} {v0 v1 : α}
    (ht0 : d.timestamps.get? 0 = some t0) (ht1 : d.timestamps.get? 1 = some t1)
    (hv0 : d.values.get? 0 = some v0) (hv1 : d.values.get? 1 = some v1)
    (htl : d.timestamps.get? (d.timestamps.length - 1) = some tl) :
    d.interpolated_reading_at_time t0 = .ok v1
    ∧ d.interpolated_reading_at_time tl = .error .indexError := by
  constructor
  · have hlt : t0 < t1 := by
      have hg0 : d.timestamps.getD 0 0 = t0 := getD_of_get? _ ht0
      have hg1 : d.timestamps.getD 1 0 = t1 := getD_of_get? _ ht1
      have := pairwise_getD_lt d.timestamps hpw (i := 0) (j := 1)
        (by omega) (lt_length_of_get? _ ht1)
      omega
    have h := interpolated_in_segment d hpw ht0 ht1 hv0 hv1 le_rfl hlt
    rw [h]
    have hfrac : ((t0 - t0 : Int) : ℚ) / ((t1 - t0 : Int) : ℚ) = 0 := by
      simp
    rw [hfrac]
    rw [zero_smul, sub_zero, one_smul, zero_add]
  · exact interpolated_at_last_indexError d hpw hlen
      (by have := lt_length_of_get? _ ht0; omega) htl

/-- Witness for C2 (amended) at a concrete two-entry series. -/
theorem C2_witness :
    (⟨[0, 10], [1, 2]⟩ : TimestampedData ℚ).interpolated_reading_at_time 0 = .ok 2
    ∧ (⟨[0, 10], [1, 2]⟩ : TimestampedData ℚ).interpolated_reading_at_time 10 =
        .error .indexError :=
  C2_interpolated_boundaries _ (by decide) rfl rfl rfl rfl rfl rfl

/-- C5: `reading_at_time` raises NotFoundError when no timestamp equals the
query, AmbiguousMatchError when more than one does, and otherwise returns
the reading at the unique matching index; in particular, on strictly
ascending timestamps, `reading_at_time timestamps[i]` returns `values[i]`
for every `i`. -/
theorem C5_reading_at_exact_time (α : Type) (d : TimestampedData α) (t : Int) :
    (t ∉ d.timestamps → d.reading_at_time t = .error .notFound)
    ∧ (∀ i j : Nat, i < j → d.timestamps.get? i = some t →
        d.timestamps.get? j = some t →
        d.reading_at_time t = .error .ambiguousMatch)
    ∧ (∀ (i : Nat) (vi : α), d.timestamps.get? i = some t →
        (∀ j : Nat, d.timestamps.get? j = some t → j = i) →
        d.values.get? i = some vi → d.reading_at_time t = .ok vi)
    ∧ (d.timestamps.Pairwise (· < ·) →
        ∀ (i : Nat) (vi : α), d.timestamps.get? i = some t →
          d.values.get? i = some vi → d.reading_at_time t = .ok vi) := by
  have hdef : d.reading_at_time t =
      match (List.range d.timestamps.length).filter
          (fun j => d.timestamps.getD j 0 == t) with
      | [] => .error .notFound
      | [i] => d.getItem i
      | _ => .error .ambiguousMatch := rfl
  have hmem : ∀ i : Nat, d.timestamps.get? i = some t →
      i ∈ (List.range d.timestamps.length).filter
        (fun j => d.timestamps.getD j 0 == t) := by
    intro i hi
    refine List.mem_filter.mpr ⟨List.mem_range.mpr (lt_length_of_get? _ hi), ?_⟩
    rw [beq_iff_eq]
    exact getD_of_get? _ hi
  have hpart3 : ∀ (i : Nat) (vi : α), d.timestamps.get? i = some t →
      (∀ j : Nat, d.timestamps.get? j = some t → j = i) →
      d.values.get? i = some vi → d.reading_at_time t = .ok vi := by
    intro i vi hti huniq hvi
    have hfil : (List.range d.timestamps.length).filter
        (fun j => d.timestamps.getD j 0 == t) = [i] := by
      apply filter_range_eq_singleton _ _ _ (lt_length_of_get? _ hti)
      intro j hj
      rw [beq_iff_eq]
      constructor
      · intro heq
        apply huniq
        rw [List.get?_eq_get hj]
        rw [List.getD_eq_get?, List.get?_eq_get hj] at heq
        rw [Option.some_inj]
        exact heq
      · intro hji
        subst hji
        exact getD_of_get? _ hti
    rw [hdef, hfil]
    exact getItem_of_get? d hvi
  refine ⟨?_, ?_, hpart3, ?_⟩
  · intro hnot
    have hfil : (List.range d.timestamps.length).filter
        (fun j => d.timestamps.getD j 0 == t) = [] := by
      rw [List.filter_eq_nil_iff]
      intro j hj
      rw [List.mem_range] at hj
      simp only [Bool.not_eq_true, beq_eq_false_iff_ne, ne_eq]
      intro heq
      apply hnot
      rw [← heq, List.getD_eq_get?, List.get?_eq_get hj]
      simp only [Option.getD_some]
      exact List.get_mem _ _ _
    rw [hdef, hfil]
  · intro i j hij hti htj
    have hmi := hmem i hti
    have hmj := hmem j htj
    rcases hfl : (List.range d.timestamps.length).filter
        (fun k => d.timestamps.getD k 0 == t) with _ | ⟨a, _ | ⟨b, rest⟩⟩
    · rw [hfl] at hmi
      exact absurd hmi (List.not_mem_nil i)
    · rw [hfl] at hmi hmj
      rw [List.mem_singleton] at hmi hmj
      omega
    · rw [hdef, hfl]
  · intro hpw i vi hti hvi
    apply hpart3 i vi hti _ hvi
    intro j htj
    by_contra hne
    rcases Nat.lt_or_ge j i with hlt | hge
    · have := pairwise_getD_lt _ hpw hlt (lt_length_of_get? _ hti)
      rw [getD_of_get? _ htj, getD_of_get? _ hti] at this
      omega
    · have hlt : i < j := by omega
      have := pairwise_getD_lt _ hpw hlt (lt_length_of_get? _ htj)
      rw [getD_of_get? _ htj, getD_of_get? _ hti] at this
      omega

/-- Witness for C5 on concrete series: a missing time, a duplicated time,
and an exact hit. -/
theorem C5_witness :
    (⟨[5, 7], [10, 20]⟩ : TimestampedData Int).reading_at_time 6 = .error .notFound
    ∧ (⟨[5, 5], [10, 20]⟩ : TimestampedData Int).reading_at_time 5 =
        .error .ambiguousMatch
    ∧ (⟨[5, 7], [10, 20]⟩ : TimestampedData Int).reading_at_time 7 = .ok 20 :=
  ⟨(C5_reading_at_exact_time Int _ 6).1 (by decide),
   (C5_reading_at_exact_time Int _ 5).2.1 0 1 (by decide) rfl rfl,
   (C5_reading_at_exact_time Int _ 7).2.2.2 (by decide) 1 20 rfl rfl⟩

/-- C6: on a non-empty TimeSeries, for `t < timestamps[0]` or
`t > timestamps[last]` both `check_time_in_range` and
`interpolated_reading_at_time` fail with OutOfRangeError; for
`timestamps[0] ≤ t ≤ timestamps[last]`, `check_time_in_range` succeeds. -/
theorem C6_out_of_range {α : Type} [SMul ℚ α] [Add α] (d : TimestampedData α)
    {first last : Int}
    (hh : d.timestamps.head? = some first) (hl : d.timestamps.getLast? = some last)
    (t : Int) :
    ((t < first ∨ last < t) →
      d.check_time_in_range t = .error .outOfRange
      ∧ d.interpolated_reading_at_time t = .error .outOfRange)
    ∧ (first ≤ t → t ≤ last → d.check_time_in_range t = .ok ()) := by
  have hdef : d.check_time_in_range t =
      match d.timestamps.head?, d.timestamps.getLast? with
      | some first, some last =>
          if first ≤ t ∧ t ≤ last then .ok () else .error .outOfRange
      | _, _ => .error .indexError := rfl
  constructor
  · intro hout
    have hchk : d.check_time_in_range t = .error .outOfRange := by
      rw [hdef, hh, hl]
      show (if first ≤ t ∧ t ≤ last then (Except.ok () : Except PyErr Unit)
            else .error .outOfRange) = .error .outOfRange
      rw [if_neg (by omega)]
    refine ⟨hchk, ?_⟩
    simp only [TimestampedData.interpolated_reading_at_time, hchk, bind, Except.bind]
  · intro h1 h2
    rw [hdef, hh, hl]
    show (if first ≤ t ∧ t ≤ last then (Except.ok () : Except PyErr Unit)
          else .error .outOfRange) = .ok ()
    rw [if_pos ⟨h1, h2⟩]

/-- Witness for C6 on a concrete series, below range and inside range. -/
theorem C6_witness :
    ((⟨[0, 10], [1, 2]⟩ : TimestampedData ℚ).check_time_in_range (-5) =
        .error .outOfRange
      ∧ (⟨[0, 10], [1, 2]⟩ : TimestampedData ℚ).interpolated_reading_at_time (-5) =
        .error .outOfRange)
    ∧ (⟨[0, 10], [1, 2]⟩ : TimestampedData ℚ).check_time_in_range 5 = .ok () :=
  ⟨(C6_out_of_range (⟨[0, 10], [1, 2]⟩ : TimestampedData ℚ) rfl rfl (-5)).1
      (Or.inl (by decide)),
   (C6_out_of_range (⟨[0, 10], [1, 2]⟩ : TimestampedData ℚ) rfl rfl 5).2
      (by decide) (by decide)⟩

/-- C3 counterexample: a recording-span file whose two non-comment lines are
in the order Stop, Start loads successfully — the adapter does NOT require
the order Start then Stop. -/
theorem C3_counterexample :
    RecordStartStop.load ["Stop::3::4::x", "Start::1::2::y"] =
      .ok ⟨3, 4, "x", 1, 2, "y"⟩ := by decide

/-- C3 (amended): the recording-span adapter strips lines beginning with
`"//"`, then fails with SchemaError unless exactly 2 lines remain; each
processed line fails with SchemaError when its event-type token is not
exactly `"Start"` or `"Stop"`; but the relative order of the Start and Stop
lines is not validated (a Stop line followed by a Start line loads). -/
theorem C3_record_start_stop_schema :
    (∀ lines : List String,
      (lines.filter (fun l => !(pyStartsWith l "//"))).length ≠ 2 →
      RecordStartStop.load lines = .error .schemaError)
    ∧ (∀ (lines : List String) (l1 l2 e t w dd : String),
        lines.filter (fun l => !(pyStartsWith l "//")) = [l1, l2] →
        pySplit l1 "::" = [e, t, w, dd] → e ≠ "Start" → e ≠ "Stop" →
        RecordStartStop.load lines = .error .schemaError)
    ∧ (∀ (lines : List String) (l1 l2 e t w dd : String) (s : Int × Int × String),
        lines.filter (fun l => !(pyStartsWith l "//")) = [l1, l2] →
        RecordStartStop.process l1 = .ok s →
        pySplit l2 "::" = [e, t, w, dd] → e ≠ "Start" → e ≠ "Stop" →
        RecordStartStop.load lines = .error .schemaError)
    ∧ RecordStartStop.load ["Stop::30::40::p", "Start::10::20::q"] =
        .ok ⟨30, 40, "p", 10, 20, "q"⟩ := by
  have hdef : ∀ ls : List String, RecordStartStop.load ls =
      match ls.filter (fun l => !(pyStartsWith l "//")) with
      | [start_line, end_line] =>
        (RecordStartStop.process start_line).bind (fun s =>
          (RecordStartStop.process end_line).bind (fun e =>
            .ok ⟨s.1, s.2.1, s.2.2, e.1, e.2.1, e.2.2⟩))
      | _ => .error .schemaError := fun _ => rfl
  have hdefp : ∀ s : String, RecordStartStop.process s =
      match pySplit s "::" with
      | [event_type, time_in_ns, wall, date] =>
        if event_type = "Start" ∨ event_type = "Stop" then
          (pyInt time_in_ns).bind (fun t => (pyInt wall).bind (fun w => .ok (t, w, date)))
        else .error .schemaError
      | _ => .error .parseError := fun _ => rfl
  refine ⟨?_, ?_, ?_, by decide⟩
  · intro lines hlen
    rcases hfl : lines.filter (fun l => !(pyStartsWith l "//")) with _ | ⟨a, _ | ⟨b, _ | ⟨c, rest⟩⟩⟩
    · simp only [hdef lines, hfl]
    · simp only [hdef lines, hfl]
    · exact (hlen (by simp [hfl])).elim
    · simp only [hdef lines, hfl]
  · intro lines l1 l2 e t w dd hfl hsplit he1 he2
    have hp1 : RecordStartStop.process l1 = .error .schemaError := by
      simp only [hdefp l1, hsplit]
      rw [if_neg (by rintro (h | h); exact he1 h; exact he2 h)]
    simp only [hdef lines, hfl, hp1, Except.bind]
  · intro lines l1 l2 e t w dd s hfl hp1 hsplit he1 he2
    have hp2 : RecordStartStop.process l2 = .error .schemaError := by
      simp only [hdefp l2, hsplit]
      rw [if_neg (by rintro (h | h); exact he1 h; exact he2 h)]
    simp only [hdef lines, hfl, hp1, hp2, Except.bind]

/-- Witness for C3 (amended): wrong line count, a bad token on the first
line, and a bad token on the second line, all on concrete files. -/
theorem C3_witness :
    RecordStartStop.load ["Start::1::2::a"] = .error .schemaError
    ∧ RecordStartStop.load ["Begin::1::2::a", "Stop::3::4::b"] = .error .schemaError
    ∧ RecordStartStop.load ["Start::1::2::a", "End::3::4::b"] = .error .schemaError :=
  ⟨C3_record_start_stop_schema.1 ["Start::1::2::a"] (by decide),
   C3_record_start_stop_schema.2.1 ["Begin::1::2::a", "Stop::3::4::b"]
     "Begin::1::2::a" "Stop::3::4::b" "Begin" "1" "2" "a" (by decide) (by decide)
     (by decide) (by decide),
   C3_record_start_stop_schema.2.2.1 ["Start::1::2::a", "End::3::4::b"]
     "Start::1::2::a" "End::3::4::b" "End" "3" "4" "b" (1, 2, "a") (by decide) (by decide)
     (by decide) (by decide) (by decide)⟩

/-- C4 counterexample: the parsed entry's timestamp slot is NOT the integer
100 — `CameraParams._process` never casts, so the entry holds the string
`"100"`. -/
theorem C4_counterexample :
    CameraParams.load ["100::phoneA::mode=fast,slow;zoom=2"] ≠
      .ok [(.int 100, "phoneA", [("mode", ["fast", "slow"]), ("zoom", ["2"])])] := by
  decide

/-- C4 (amended): parsing the camera-params line
`"100::phoneA::mode=fast,slow;zoom=2"` yields exactly one entry
`("100", "phoneA", {"mode": ["fast","slow"], "zoom": ["2"]})` — keys map to
lists of value strings split on commas and nothing else is attached, but the
timestamp is kept as the raw string `"100"`, not cast to an integer. -/
theorem C4_camera_params_line :
    CameraParams.load ["100::phoneA::mode=fast,slow;zoom=2"] =
      .ok [(.str "100", "phoneA", [("mode", ["fast", "slow"]), ("zoom", ["2"])])] := by
  decide

/-- C7: parsing the two vector lines `"1000,1.0,2.0,3.0,"` and
`"2000,4.0,5.0,6.0,"` yields timestamps `[1000, 2000]` and values
`[[1,2,3],[4,5,6]]` (trailing empty field dropped, line order preserved),
and interpolating that series at 1500 yields `[2.5, 3.5, 4.5]` under the
inverted-weight rule. -/
theorem C7_vector_round_trip :
    Timestamped4Vec.load ["1000,1.0,2.0,3.0,", "2000,4.0,5.0,6.0,"] =
      .ok ⟨[1000, 2000], [[1, 2, 3], [4, 5, 6]]⟩
    ∧ TimestampedData.interpolated_reading_at_time
        (⟨[1000, 2000], [[1, 2, 3], [4, 5, 6]]⟩ : TimestampedData (List ℚ)) 1500 =
        .ok [5/2, 7/2, 9/2] := by
  constructor
  · simp +decide [Timestamped4Vec.load, pySplit, pySplitAux, pyInt, pyIntVal, pyTrim,
      digitsVal, pyFloat, pyFloatMag, bind, Except.bind, List.mapM.loop]
  · simp +decide [TimestampedData.interpolated_reading_at_time,
      TimestampedData.check_time_in_range, TimestampedData.first_reading_above,
      TimestampedData.first_reading_below, TimestampedData.getItem, List.range_succ,
      bind, Except.bind, pure, Except.pure, List.find?, listSMul_def, listAdd_def,
      smul_eq_mul]
    norm_num

/-- C9: `TimestampedData.total_time` returns `timestamps[last] -
timestamps[0]` whenever at least one entry exists (0 for a single entry, no
special flag) and fails on an empty stream, while `CameraParams.total_time`
returns the sentinel `-1` for a single entry; but with two or more entries
the camera-params subtraction is `str - str` (the timestamps were never cast
to int) and raises TypeError instead of returning the difference — shown on
the two-line file `"100::a::k=v"`, `"200::a::k=v"`. -/
theorem C9_total_time :
    (∀ (α : Type) (d : TimestampedData α) (first last : Int),
        d.timestamps.head? = some first → d.timestamps.getLast? = some last →
        d.total_time = .ok (last - first))
    ∧ (∀ (α : Type) (d : TimestampedData α) (a : Int), d.timestamps = [a] →
        d.total_time = .ok 0)
    ∧ (∀ (α : Type) (d : TimestampedData α), d.timestamps = [] →
        d.total_time = .error .indexError)
    ∧ (∀ e : CameraParams.Entry, CameraParams.total_time [e] = .ok (.int (-1)))
    ∧ CameraParams.load ["100::a::k=v", "200::a::k=v"] =
        .ok [(.str "100", "a", [("k", ["v"])]), (.str "200", "a", [("k", ["v"])])]
    ∧ CameraParams.total_time
        [(.str "100", "a", [("k", ["v"])]), (.str "200", "a", [("k", ["v"])])] =
        .error .typeError := by
  have hdef : ∀ (α : Type) (d : TimestampedData α), d.total_time =
      match d.timestamps.head?, d.timestamps.getLast? with
      | some first, some last => .ok (last - first)
      | _, _ => .error .indexError := fun _ _ => rfl
  refine ⟨?_, ?_, ?_, ?_, by decide, by decide⟩
  · intro α d first last hh hl
    simp only [hdef, hh, hl]
  · intro α d a hts
    simp [hdef, hts]
  · intro α d hts
    simp [hdef, hts]
  · intro e
    simp [CameraParams.total_time]

/-- Witness for C9's TimeSeries and single-entry clauses on concrete data. -/
theorem C9_witness :
    (⟨[3, 10], [0, 0]⟩ : TimestampedData Int).total_time = .ok 7
    ∧ (⟨[5], [0]⟩ : TimestampedData Int).total_time = .ok 0
    ∧ (⟨[], []⟩ : TimestampedData Int).total_time = .error .indexError
    ∧ CameraParams.total_time [(.str "100", "a", [])] = .ok (.int (-1)) :=
  ⟨(C9_total_time.1 Int ⟨[3, 10], [0, 0]⟩ 3 10 rfl rfl).trans (by decide),
   C9_total_time.2.1 Int ⟨[5], [0]⟩ 5 rfl,
   C9_total_time.2.2.1 Int ⟨[], []⟩ rfl,
   C9_total_time.2.2.2.1 (.str "100", "a", [])⟩

/-- C10: the vector adapter splits each line on `","` and unconditionally
drops the final field, so a stored reading always has two fewer components
than the line has comma-separated fields; on the line
`"1000,1.0,2.0,3.0"` (no trailing comma) the numeric component `3.0` is
silently dropped and the stored reading is `[1, 2]`. -/
theorem C10_drop_last_field :
    (∀ (l : String) (d : TimestampedData (List ℚ)),
      Timestamped4Vec.load [l] = .ok d →
      ∃ ts v, d = ⟨[ts], [v]⟩ ∧ v.length = (pySplit l ",").length - 2)
    ∧ Timestamped4Vec.load ["1000,1.0,2.0,3.0"] = .ok ⟨[1000], [[1, 2]]⟩ := by
  constructor
  · intro l d h
    have hdefl : Timestamped4Vec.load [l] =
        ((match ((pySplit l ",").dropLast).head? with
          | some s => pyInt s
          | none => Except.error PyErr.indexError).bind (fun a => Except.ok [a])).bind
          (fun timestamps =>
            ((((pySplit l ",").dropLast).tail.mapM pyFloat).bind
              (fun b => Except.ok [b])).bind
              (fun data => Except.ok ⟨timestamps, data⟩)) := rfl
    rw [hdefl] at h
    rcases hhead : ((pySplit l ",").dropLast).head? with _ | s
    · simp only [hhead, Except.bind] at h
      exact Except.noConfusion h
    · rcases hint : pyInt s with e | ts0
      · simp only [hhead, hint, Except.bind] at h
        exact Except.noConfusion h
      · rcases hfloat : ((pySplit l ",").dropLast).tail.mapM pyFloat with e | v
        · simp only [hhead, hint, hfloat, Except.bind] at h
          exact Except.noConfusion h
        · simp only [hhead, hint, hfloat, Except.bind] at h
          have hd := Except.ok.inj h
          refine ⟨ts0, v, hd.symm, ?_⟩
          have h1 := mapM_ok_length pyFloat ((pySplit l ",").dropLast).tail v hfloat
          have h2 : (((pySplit l ",").dropLast).tail).length =
              ((pySplit l ",").dropLast).length - 1 := List.length_tail _
          have h3 : ((pySplit l ",").dropLast).length = (pySplit l ",").length - 1 :=
            List.length_dropLast _
          omega
  · simp +decide [Timestamped4Vec.load, pySplit, pySplitAux, pyInt, pyIntVal, pyTrim,
      digitsVal, pyFloat, pyFloatMag, bind, Except.bind, List.mapM.loop]

/-- Witness for C10's universal clause at a concrete line without a trailing
comma: 4 fields, reading of length 2. -/
theorem C10_witness :
    ∃ ts v, (⟨[1000], [[1, 2]]⟩ : TimestampedData (List ℚ)) = ⟨[ts], [v]⟩
      ∧ v.length = (pySplit "1000,1.0,2.0,3.0" ",").length - 2 :=
  C10_drop_last_field.1 "1000,1.0,2.0,3.0" ⟨[1000], [[1, 2]]⟩
    (by simp +decide [Timestamped4Vec.load, pySplit, pySplitAux, pyInt, pyIntVal, pyTrim,
      digitsVal, pyFloat, pyFloatMag, bind, Except.bind, List.mapM.loop])

/-- C8: session loading fails with NamingError unless the basename, compared
case-insensitively, starts with `"video-"` and ends with `".mp4"`; on
success the derived session id is exactly the substring strictly between the
6-character prefix and the 4-character suffix, and the companion metadata
directory is `"videodata_video-" ++ sessionId` alongside the video file. -/
theorem C8_naming (base_dir vid_file_name : String) :
    (¬ (pyStartsWith (pyLower vid_file_name) "video-" = true
        ∧ pyEndsWith (pyLower vid_file_name) ".mp4" = true) →
      IMUSensorVideo.naming base_dir vid_file_name = .error .namingError)
    ∧ (∀ p id suf : String, vid_file_name = p ++ id ++ suf →
        p.length = 6 → suf.length = 4 →
        pyLower p = "video-" → pyLower suf = ".mp4" →
        IMUSensorVideo.naming base_dir vid_file_name =
          .ok (id, base_dir ++ "/" ++ ("videodata_video-" ++ id))) := by
  constructor
  · intro hnot
    cases hA : pyStartsWith (pyLower vid_file_name) "video-"
    · simp [IMUSensorVideo.naming, hA]
    · have hB : pyEndsWith (pyLower vid_file_name) ".mp4" = false := by
        cases hB : pyEndsWith (pyLower vid_file_name) ".mp4"
        · rfl
        · exact absurd ⟨hA, hB⟩ hnot
      simp [IMUSensorVideo.naming, hA, hB]
  · intro p id suf hname h6 h4 hp hsuf
    subst hname
    have h6' : p.data.length = 6 := h6
    have h4' : suf.data.length = 4 := h4
    have hdata : (p ++ id ++ suf).data = p.data ++ id.data ++ suf.data := by
      rw [String.data_append, String.data_append]
    have hlow : (pyLower (p ++ id ++ suf)).data =
        p.data.map Char.toLower ++ id.data.map Char.toLower
          ++ suf.data.map Char.toLower := by
      show (p ++ id ++ suf).data.map Char.toLower = _
      rw [hdata, List.map_append, List.map_append]
    have hpd : p.data.map Char.toLower = "video-".data := congrArg String.data hp
    have hsd : suf.data.map Char.toLower = ".mp4".data := congrArg String.data hsuf
    have hA : pyStartsWith (pyLower (p ++ id ++ suf)) "video-" = true := by
      show ((pyLower (p ++ id ++ suf)).data.take "video-".data.length
          == "video-".data) = true
      rw [hlow, List.append_assoc]
      rw [show "video-".data.length = 6 from rfl]
      rw [List.take_left' (by rw [List.length_map, h6'])]
      rw [hpd]
      exact beq_self_eq_true _
    have hB : pyEndsWith (pyLower (p ++ id ++ suf)) ".mp4" = true := by
      show ((pyLower (p ++ id ++ suf)).data.drop
          ((pyLower (p ++ id ++ suf)).data.length - ".mp4".data.length)
          == ".mp4".data) = true
      rw [hlow]
      have hlen : (p.data.map Char.toLower ++ id.data.map Char.toLower
          ++ suf.data.map Char.toLower).length - ".mp4".data.length =
          (p.data.map Char.toLower ++ id.data.map Char.toLower).length := by
        simp only [List.length_append, List.length_map,
          show ".mp4".data.length = 4 from rfl, h6', h4']
        omega
      rw [hlen, List.drop_left, hsd]
      exact beq_self_eq_true _
    have hid : (String.mk (((p ++ id ++ suf).data.drop 6).take
        ((p ++ id ++ suf).data.length - 10))) = id := by
      rw [hdata, List.append_assoc]
      rw [List.drop_left' h6']
      have harith : (p.data ++ (id.data ++ suf.data)).length - 10 = id.data.length := by
        simp only [List.length_append, h6', h4']
        omega
      rw [harith, List.take_left' rfl]
    have hdefn : IMUSensorVideo.naming base_dir (p ++ id ++ suf) =
        if !(pyStartsWith (pyLower (p ++ id ++ suf)) "video-") then .error .namingError
        else if !(pyEndsWith (pyLower (p ++ id ++ suf)) ".mp4") then .error .namingError
        else .ok
          ((⟨((p ++ id ++ suf).data.drop 6).take
              ((p ++ id ++ suf).data.length - 10)⟩ : String),
            base_dir ++ "/" ++ ("videodata_video-" ++
              (⟨((p ++ id ++ suf).data.drop 6).take
                ((p ++ id ++ suf).data.length - 10)⟩ : String))) := rfl
    rw [hdefn, hA, hB]
    show Except.ok
        ((⟨((p ++ id ++ suf).data.drop 6).take
            ((p ++ id ++ suf).data.length - 10)⟩ : String),
          base_dir ++ "/" ++ ("videodata_video-" ++
            (⟨((p ++ id ++ suf).data.drop 6).take
              ((p ++ id ++ suf).data.length - 10)⟩ : String))) =
      Except.ok (id, base_dir ++ "/" ++ ("videodata_video-" ++ id))
    rw [hid]

/-- Witness for C8: a rejected basename and an accepted mixed-case one. -/
theorem C8_witness :
    IMUSensorVideo.naming "/data" "clip.mp4" = .error .namingError
    ∧ IMUSensorVideo.naming "/data" "Video-abc.MP4" =
        .ok ("abc", "/data" ++ "/" ++ ("videodata_video-" ++ "abc")) :=
  ⟨(C8_naming "/data" "clip.mp4").1 (by decide),
   (C8_naming "/data" "Video-abc.MP4").2 "Video-" "abc" ".MP4" (by decide) rfl rfl
     (by decide) (by decide)⟩
